import Mathlib

/-!
Verification of the concurrent password-search core of the repository
(src/src/lib.rs) against its natural-language specification.

The embedding models `start_extraction` (lines 92-139) as a small-step
transition system: one spawned task per candidate password, a semaphore
wrapped in a mutex (line 98), a shared atomic stop flag (line 99), and a
bounded mpsc channel of capacity `passwords.len()` (line 102).  The decode
black box `try_extract_7z_with_password` (lines 21-38) is modelled both
inside the transition system (as an oracle classifying each target/password
attempt) and as a standalone sequential function exposing its internal
structure (the `File::open(..).unwrap()` on line 27 panics on an I/O error,
while every decoder error is returned as `Err` and treated as "try next").
`read_config` (lines 179-193) is embedded with its thread-count clamp.
-/

namespace CascadingExtract

/-- Outcome of one decode attempt of a single target with a single password,
as observed by the loop in `start_extraction` lines 116-125: `success` is
`Ok(())` from `try_extract_7z_with_password`, `failure` is any `Err` (wrong
password or decoder error), and `panics` is the panic raised by the
`File::open(&path).unwrap()` when the target cannot be opened. -/
inductive AttemptResult
  | success
  | failure
  | panics
deriving DecidableEq, Repr

/-- Arguments of a run of `start_extraction`, plus the decode oracle `att`
giving the result of attempting each target path with each password. -/
structure Params where
  passwords : List String
  paths : List String
  att : String → String → AttemptResult
  maxThreads : Nat

/-- Control point of one spawned per-candidate task (lines 112-128).
`toLock`: before `semaphore.lock().await` (line 113); `toAcquire`: holding
the mutex guard, before `acquire().await` (line 114); `looping rem`: holding
mutex and permit, `rem` targets left in the `for path in paths` loop;
`toSend`: decode succeeded and the stop flag was stored (line 120), about to
`tx.send` (line 121); `finished`: returned normally, all resources dropped;
`crashed`: panicked, resources released by unwinding. -/
inductive TaskPhase
  | toLock
  | toAcquire
  | looping (rem : List String)
  | toSend
  | finished
  | crashed
deriving DecidableEq, Repr

/-- Control point of the spawning function: `recvLoop` is the
`while let Some(password) = rx.recv().await` loop (lines 132-138); `done`
means `start_extraction` has returned (dropping its `tx` and `rx`). -/
inductive MainPhase
  | recvLoop
  | done
deriving DecidableEq, Repr

/-- Shared state of a run of `start_extraction`: the spawned tasks (password
paired with the task's control point, in spawn order), the atomic stop flag,
the buffered channel contents, and the spawning function's control point. -/
structure RunState where
  tasks : List (String × TaskPhase)
  stopFlag : Bool
  buf : List String
  mainPhase : MainPhase
deriving DecidableEq, Repr

/-- A task holds the tokio mutex guard from line 113 until its body ends. -/
def TaskPhase.holdsMutex : TaskPhase → Bool
  | .toAcquire => true
  | .looping _ => true
  | .toSend => true
  | _ => false

/-- A task holds the semaphore permit between line 114 and `drop(permit)`
(lines 122 and 127), or until unwinding releases it. -/
def TaskPhase.holdsPermit : TaskPhase → Bool
  | .looping _ => true
  | .toSend => true
  | _ => false

/-- A task is inside the `for path in paths.iter()` attempt loop. -/
def TaskPhase.inAttemptLoop : TaskPhase → Bool
  | .looping _ => true
  | _ => false

/-- The task's clone of the channel sender (line 105) is alive until the
task's body ends, normally or by panic. -/
def TaskPhase.txAlive : TaskPhase → Bool
  | .finished => false
  | .crashed => false
  | _ => true

/-- The mutex of line 98 is free when no task holds its guard. -/
def RunState.mutexFree (s : RunState) : Bool :=
  s.tasks.all (fun t => !t.2.holdsMutex)

/-- Number of semaphore permits currently held by tasks. -/
def RunState.permitsHeld (s : RunState) : Nat :=
  s.tasks.countP (fun t => t.2.holdsPermit)

/-- Number of tasks currently holding the mutex guard. -/
def RunState.mutexHolders (s : RunState) : Nat :=
  s.tasks.countP (fun t => t.2.holdsMutex)

/-- Number of tasks currently inside their target-attempt loop. -/
def RunState.loopers (s : RunState) : Nat :=
  s.tasks.countP (fun t => t.2.inAttemptLoop)

/-- Number of live `Sender` handles of the report channel.  The original
`tx` of line 102 lives in `start_extraction`'s own scope, so it is alive
for as long as the receive loop runs; each task's clone is alive until that
task ends. -/
def RunState.sendersAlive (s : RunState) : Nat :=
  (if s.mainPhase = MainPhase.recvLoop then 1 else 0) +
    s.tasks.countP (fun t => t.2.txAlive)

/-- Replace the phase of task `i`, keeping its password. -/
def RunState.setPhase (s : RunState) (i : Nat) (pw : String) (ph : TaskPhase) :
    RunState :=
  { s with tasks := s.tasks.set i (pw, ph) }

/-- A scheduling action: run one micro-step of task `i`, or let the receive
loop take a buffered report, or let it observe the channel closed. -/
inductive Act
  | task (i : Nat)
  | recv
  | recvClosed
deriving DecidableEq, Repr

/-- One micro-step of the run, following lines 112-138 of the source.
`none` means the chosen action is not enabled (the task would stay blocked,
or is already gone).  A task locks the mutex only when free (line 113),
acquires a permit only when one is available (line 114), attempts the next
target with its password (line 117) - on success storing the stop flag
(line 120) and moving to the send (line 121), on failure moving on, on an
open panic crashing -, and a send succeeds while the receiver is alive and
the buffer has room, but panics (`unwrap` on line 121) once the receiver
has been dropped.  The receive loop takes one buffered report and exits if
the stop flag is set (lines 132-138); `recv` returning `None` requires
every sender to be dropped, including the original one. -/
def step (P : Params) (s : RunState) : Act → Option RunState
  | .task i =>
    match s.tasks[i]? with
    | none => none
    | some (pw, .toLock) =>
        if s.mutexFree then some (s.setPhase i pw .toAcquire) else none
    | some (pw, .toAcquire) =>
        if s.permitsHeld < P.maxThreads then
          some (s.setPhase i pw (.looping P.paths))
        else none
    | some (pw, .looping []) => some (s.setPhase i pw .finished)
    | some (pw, .looping (p :: rem)) =>
        match P.att p pw with
        | .success =>
            some { s with
                    tasks := s.tasks.set i (pw, TaskPhase.toSend)
                    stopFlag := true }
        | .failure => some (s.setPhase i pw (.looping rem))
        | .panics => some (s.setPhase i pw .crashed)
    | some (pw, .toSend) =>
        if s.mainPhase = MainPhase.done then some (s.setPhase i pw .crashed)
        else if s.buf.length < P.passwords.length then
          some { s with
                  tasks := s.tasks.set i (pw, TaskPhase.finished)
                  buf := s.buf ++ [pw] }
        else none
    | some (_, .finished) => none
    | some (_, .crashed) => none
  | .recv =>
    match s.buf, s.mainPhase with
    | _ :: rest, .recvLoop =>
        some { s with
                buf := rest
                mainPhase := if s.stopFlag then MainPhase.done else MainPhase.recvLoop }
    | _, _ => none
  | .recvClosed =>
    if s.mainPhase = MainPhase.recvLoop ∧ s.buf = [] ∧ s.sendersAlive = 0 then
      some { s with mainPhase := MainPhase.done }
    else none

/-- Either a normal value or a panic, for modelling Rust code that can
panic. -/
inductive RunOutcome (α : Type)
  | ok (val : α)
  | panicked
deriving DecidableEq, Repr

/-- Construction of the tokio `mpsc::channel` of line 102: tokio panics when
the requested capacity is zero, otherwise the capacity is accepted. -/
def mkChannel (cap : Nat) : RunOutcome Nat :=
  if cap = 0 then RunOutcome.panicked else RunOutcome.ok cap

/-- State right after the spawn loop of lines 104-129: every task is about
to lock the mutex, the stop flag is clear, the channel is empty and the
receive loop is about to run. -/
def initState (passwords : List String) : RunState :=
  { tasks := passwords.map (fun pw => (pw, TaskPhase.toLock))
    stopFlag := false
    buf := []
    mainPhase := MainPhase.recvLoop }

/-- Entry of `start_extraction` (line 92): it builds the report channel with
capacity `passwords.len()` (line 102) - panicking when that is zero - and
then spawns one task per password. -/
def start_extraction (P : Params) : RunOutcome RunState :=
  match mkChannel P.passwords.length with
  | RunOutcome.panicked => RunOutcome.panicked
  | RunOutcome.ok _ => RunOutcome.ok (initState P.passwords)

/-- One optional step, for folding a schedule. -/
def stepO (P : Params) (os : Option RunState) (a : Act) : Option RunState :=
  os.bind (fun s => step P s a)

/-- Execute a schedule of actions from the initial state; `none` when the
run panicked at startup or the schedule chose a disabled action. -/
def run (P : Params) (acts : List Act) : Option RunState :=
  match start_extraction P with
  | RunOutcome.panicked => none
  | RunOutcome.ok s0 => acts.foldl (stepO P) (some s0)

/-- The value `start_extraction` hands back to its caller: the function's
return type is the unit type, whatever the final state was. -/
def startExtractionReturn : RunState → Unit := fun _ => ()

/-- Modelled from the spec: the `SearchResult` shape the specification says
the caller receives - either `Found{candidate, target}` or `NotFound`.
This type is stated from the spec's words for comparison; the source has no
corresponding type. -/
inductive SearchResult
  | found (candidate target : String)
  | notFound
deriving DecidableEq, Repr

/-- Error kinds a decode attempt can report, as distinguished by the spec;
the source's `try_extract_7z_with_password` surfaces every decoder error as
a single boxed `Err`. -/
inductive DecodeError
  | wrongPassword
  | corruptOrUnsupported
deriving DecidableEq, Repr

/-- Result of `File::open` on one target (line 27). -/
inductive OpenResult
  | opened
  | ioError
deriving DecidableEq, Repr

/-- One target archive as seen by `try_extract_7z_with_password`: whether
its file opens, and what the decoder says for each password (`none` means
the extraction succeeds). -/
structure TargetEnv where
  openRes : OpenResult
  dec : String → Option DecodeError

/-- Embedding of `try_extract_7z_with_password` (lines 21-38): the call
`File::open(&path).unwrap()`
panics when the target cannot be opened; otherwise the decoder's error, if
any, is returned as `Err` and a successful extraction returns `Ok(())`. -/
def try_extract_7z_with_password (env : TargetEnv) (password : String) :
    RunOutcome (Except DecodeError Unit) :=
  match env.openRes with
  | OpenResult.ioError => RunOutcome.panicked
  | OpenResult.opened =>
    match env.dec password with
    | none => RunOutcome.ok (Except.ok ())
    | some e => RunOutcome.ok (Except.error e)

/-- How one task's inner target loop ends: it reported a success, exhausted
its targets without reporting, or panicked. -/
inductive TaskExit
  | reported (pw : String)
  | exhausted
  | panicked
deriving DecidableEq, Repr

/-- The `for path in paths.iter()` loop of one task (lines 116-125), run
sequentially over the targets with the task's single password: the first
`Ok(())` ends the loop with a report, any `Err` moves to the next target,
and a panic inside `try_extract_7z_with_password` aborts the task. -/
def taskTargetLoop (envs : List TargetEnv) (pw : String) : TaskExit :=
  match envs with
  | [] => TaskExit.exhausted
  | env :: rest =>
    match try_extract_7z_with_password env pw with
    | RunOutcome.panicked => TaskExit.panicked
    | RunOutcome.ok (Except.ok _) => TaskExit.reported pw
    | RunOutcome.ok (Except.error _) => taskTargetLoop rest pw

/-- The `[config]` table of `settings.toml` (struct `ConfigSettings`,
lines 159-167); `threads` is a `u8` in the source, modelled as a natural
number. -/
structure ConfigSettings where
  delete_archive : Bool
  recursive_search : Bool
  threads : Nat
  dest : String
  smart_mode : Bool
deriving DecidableEq, Repr

/-- The `[user]` table of `settings.toml` (struct `UserConfig`,
lines 173-177). -/
structure UserConfig where
  passwords : Option (List String)
  watch_folders : Option (List String)
deriving DecidableEq, Repr

/-- The whole parsed configuration (struct `Config`, lines 151-157). -/
structure Config where
  config : ConfigSettings
  user : UserConfig
deriving DecidableEq, Repr

/-- The ways `read_config` can fail before reaching the thread clamp:
opening or reading `settings.toml`, or parsing it as TOML. -/
inductive ConfigError
  | ioError
  | parseError
deriving DecidableEq, Repr

/-- Embedding of `default_threads` (lines 169-171). -/
def default_threads : Nat := 4

/-- Embedding of `read_config` (lines 179-193), taking the outcome of reading and
parsing `settings.toml` as input: errors pass through via `?`, and a parsed
configuration whose `threads` lies outside `1..=8` has it replaced by
`default_threads` (lines 188-190). -/
def read_config (parsed : Except ConfigError Config) :
    Except ConfigError Config :=
  match parsed with
  | Except.error e => Except.error e
  | Except.ok settings =>
    Except.ok
      { settings with
          config :=
            { settings.config with
                threads :=
                  if settings.config.threads < 1 ∨ settings.config.threads > 8
                  then default_threads
                  else settings.config.threads } }

/-! ### Invariants and concrete scenarios -/

/-- Global invariant of every reachable state of `start_extraction`:
the tasks are exactly the candidate passwords in spawn order; at most one
task holds the mutex guard; at most `max_threads` semaphore permits are
held; every attempt loop walks a suffix of the configured target list; a
task about to send has already stored the stop flag; a non-empty channel
means the stop flag is set; and every buffered report is one of the
candidate passwords. -/
def Inv (P : Params) (s : RunState) : Prop :=
  s.tasks.map Prod.fst = P.passwords ∧
  s.mutexHolders ≤ 1 ∧
  s.permitsHeld ≤ P.maxThreads ∧
  (∀ (i : Nat) (pw : String) (rem : List String),
    s.tasks[i]? = some (pw, TaskPhase.looping rem) →
    List.IsSuffix rem P.paths) ∧
  (∀ (i : Nat) (pw : String),
    s.tasks[i]? = some (pw, TaskPhase.toSend) → s.stopFlag = true) ∧
  (s.buf ≠ [] → s.stopFlag = true) ∧
  (∀ m ∈ s.buf, m ∈ P.passwords)

/-- Invariant of runs whose decode oracle never succeeds: the stop flag is
never stored, nothing is ever sent, and the receive loop never ends. -/
def NoSuccessInv (s : RunState) : Prop :=
  s.mainPhase = MainPhase.recvLoop ∧ s.stopFlag = false ∧ s.buf = [] ∧
  ∀ (i : Nat) (pw : String), s.tasks[i]? ≠ some (pw, TaskPhase.toSend)

/-- A decode oracle on which every attempt fails with an error. -/
def attNever : String → String → AttemptResult :=
  fun _ _ => AttemptResult.failure

/-- A decode oracle on which every attempt succeeds. -/
def attAll : String → String → AttemptResult :=
  fun _ _ => AttemptResult.success

/-- A decode oracle on which exactly one candidate succeeds, on every
target. -/
def attWins (winner : String) : String → String → AttemptResult :=
  fun _ pw =>
    if pw = winner then AttemptResult.success else AttemptResult.failure

/-- Scenario: one candidate, one target, no candidate correct. -/
def PA : Params :=
  { passwords := ["a"], paths := ["t"], att := attNever, maxThreads := 1 }

/-- Scenario of the spec's own test: candidates "b" and "c" with one
target, correct password "b", ceiling 2. -/
def PB : Params :=
  { passwords := ["b", "c"], paths := ["t"], att := attWins "b",
    maxThreads := 2 }

/-- Scenario: two candidates that both open the single target (an archive
accepting several passwords), ceiling 2. -/
def PAll2 : Params :=
  { passwords := ["a", "b"], paths := ["t"], att := attAll, maxThreads := 2 }

/-- Scenario: one correct candidate, single target "t1". -/
def PT1 : Params :=
  { passwords := ["pw"], paths := ["t1"], att := attAll, maxThreads := 1 }

/-- Scenario: one correct candidate, single target "t2". -/
def PT2 : Params :=
  { passwords := ["pw"], paths := ["t2"], att := attAll, maxThreads := 1 }

/-- State of scenario `PA` after its only task ran to completion: the task
is finished, nothing was sent, and the receive loop is still running. -/
def sA4 : RunState :=
  { tasks := [("a", TaskPhase.finished)], stopFlag := false, buf := [],
    mainPhase := MainPhase.recvLoop }

/-- State of scenario `PB` after task 0 locked and acquired: it is inside
its attempt loop. -/
def sB2 : RunState :=
  { tasks := [("b", TaskPhase.looping ["t"]), ("c", TaskPhase.toLock)],
    stopFlag := false, buf := [], mainPhase := MainPhase.recvLoop }

/-- State of scenario `PB` after task 0's decode succeeded: the stop flag
is stored and the task is about to send. -/
def sB3 : RunState :=
  { tasks := [("b", TaskPhase.toSend), ("c", TaskPhase.toLock)],
    stopFlag := true, buf := [], mainPhase := MainPhase.recvLoop }

/-- Schedule of scenario `PB`: task 0 runs to success and reports, then
task 1 locks and acquires. -/
def actsC2 : List Act :=
  [Act.task 0, Act.task 0, Act.task 0, Act.task 0, Act.task 1, Act.task 1]

/-- State reached by `actsC2`: the token is set, "b" was reported, and the
task for "c" is inside its attempt loop with "t" still to try. -/
def sC2 : RunState :=
  { tasks := [("b", TaskPhase.finished), ("c", TaskPhase.looping ["t"])],
    stopFlag := true, buf := ["b"], mainPhase := MainPhase.recvLoop }

/-- State after task 1 additionally performed its decode attempt of "t". -/
def sC2' : RunState :=
  { tasks := [("b", TaskPhase.finished), ("c", TaskPhase.looping [])],
    stopFlag := true, buf := ["b"], mainPhase := MainPhase.recvLoop }

/-- Final state of a completed single-candidate run: the task finished, the
report was consumed, and `start_extraction` returned. -/
def sDone : RunState :=
  { tasks := [("pw", TaskPhase.finished)], stopFlag := true, buf := [],
    mainPhase := MainPhase.done }

/-- State of scenario `PT1` after the task reported, before the receive
loop consumed the report. -/
def sT1 : RunState :=
  { tasks := [("pw", TaskPhase.finished)], stopFlag := true, buf := ["pw"],
    mainPhase := MainPhase.recvLoop }

/-- Schedule of scenario `PAll2`: task 0 succeeds and reports, the receive
loop consumes the report and returns, then task 1 also succeeds and is
about to send its duplicate report. -/
def actsC8 : List Act :=
  [Act.task 0, Act.task 0, Act.task 0, Act.task 0, Act.recv,
   Act.task 1, Act.task 1, Act.task 1]

/-- State reached by `actsC8`: the run has returned but task 1 still wants
to send. -/
def s8 : RunState :=
  { tasks := [("a", TaskPhase.finished), ("b", TaskPhase.toSend)],
    stopFlag := true, buf := [], mainPhase := MainPhase.done }

/-- State after task 1's late send: the send errored and the `unwrap`
panicked the task. -/
def s8' : RunState :=
  { tasks := [("a", TaskPhase.finished), ("b", TaskPhase.crashed)],
    stopFlag := true, buf := [], mainPhase := MainPhase.done }

/-- A target whose archive opens and extracts with any password. -/
def envGood : TargetEnv :=
  { openRes := OpenResult.opened, dec := fun _ => none }

/-- A target whose archive opens but rejects every password. -/
def envWrong : TargetEnv :=
  { openRes := OpenResult.opened,
    dec := fun _ => some DecodeError.wrongPassword }

/-- A target whose file cannot be opened at all. -/
def envUnopenable : TargetEnv :=
  { openRes := OpenResult.ioError, dec := fun _ => none }

/-- A parsed configuration whose concurrency ceiling is 0. -/
def cfg0 : Config :=
  { config := { delete_archive := true, recursive_search := true,
                threads := 0, dest := "", smart_mode := true },
    user := { passwords := none, watch_folders := none } }

/-- Configuration `cfg0` after the clamp of `read_config`: threads replaced by the
default 4. -/
def cfg4 : Config :=
  { cfg0 with config := { cfg0.config with threads := 4 } }

/-! ### Generic list helpers -/

/-- Setting an index to the value it already holds leaves the list
unchanged. -/
theorem set_self_of_getq {α : Type} :
    ∀ (l : List α) (i : Nat) (a : α), l[i]? = some a → l.set i a = l
  | [], _, _, h => by simp at h
  | hd :: tl, 0, a, h => by
      simp at h
      simp [h]
  | _ :: tl, i + 1, a, h => by
      simp at h
      simp [List.set, set_self_of_getq tl i a h]

/-- Replacing one element changes a `countP` by the difference between the
old and the new element's contribution. -/
theorem countP_set_balance {α : Type} (p : α → Bool) :
    ∀ (l : List α) (i : Nat) (a b : α), l[i]? = some a →
      (l.set i b).countP p + (if p a then 1 else 0) =
        l.countP p + (if p b then 1 else 0)
  | [], _, _, _, h => by simp at h
  | hd :: tl, 0, a, b, h => by
      simp at h
      subst h
      simp [List.countP_cons]
      omega
  | hd :: tl, i + 1, a, b, h => by
      simp at h
      have ih := countP_set_balance p tl i a b h
      simp [List.set, List.countP_cons]
      omega

/-- Reading index `j` after index `i` was replaced, when `i` is in range. -/
theorem getq_set_raw {α : Type} (l : List α) (i j : Nat) (x : α)
    (hi : i < l.length) :
    (l.set i x)[j]? = if i = j then some x else l[j]? := by
  rw [List.getElem?_set]
  by_cases hij : i = j
  · simp [hij, hij ▸ hi]
  · simp [hij]

/-! ### Facts about replacing one task's phase -/

/-- Replacing a task's phase keeps the password of every task. -/
theorem map_fst_set_raw (l : List (String × TaskPhase)) (i : Nat)
    (pw : String) (ph0 ph : TaskPhase) (h : l[i]? = some (pw, ph0)) :
    (l.set i (pw, ph)).map Prod.fst = l.map Prod.fst := by
  have hmap : (l.map Prod.fst)[i]? = some pw := by
    rw [List.getElem?_map, h]
    rfl
  rw [List.map_set]
  exact set_self_of_getq (l.map Prod.fst) i pw hmap

/-- A free mutex means no task holds its guard. -/
theorem mutexFree_holders (s : RunState) (h : s.mutexFree = true) :
    s.mutexHolders = 0 := by
  rw [RunState.mutexHolders, List.countP_eq_zero]
  intro t ht
  have := (List.all_eq_true.mp h) t ht
  simpa using this

/-! ### The run invariant is inductive -/

/-- The initial state satisfies the invariant. -/
theorem inv_init (P : Params) (s0 : RunState)
    (h : start_extraction P = RunOutcome.ok s0) : Inv P s0 := by
  have hs0 : s0 = initState P.passwords := by
    rw [start_extraction] at h
    cases hmk : mkChannel P.passwords.length with
    | panicked => rw [hmk] at h; exact absurd h (by simp)
    | ok c => rw [hmk] at h; injection h with h; exact h.symm
  subst hs0
  have hcount : ∀ p : String × TaskPhase → Bool,
      (∀ pw : String, p (pw, TaskPhase.toLock) = false) →
      (initState P.passwords).tasks.countP p = 0 := by
    intro p hp
    rw [List.countP_eq_zero]
    intro t ht
    simp [initState] at ht
    obtain ⟨pw, _, ht⟩ := ht
    rw [← ht]
    simp [hp]
  refine ⟨?_, ?_, ?_, ?_, ?_, ?_, ?_⟩
  · simp [initState, Function.comp_def]
  · rw [RunState.mutexHolders, hcount _ (fun pw => by simp [TaskPhase.holdsMutex])]
    omega
  · rw [RunState.permitsHeld, hcount _ (fun pw => by simp [TaskPhase.holdsPermit])]
    omega
  · intro i pw rem hget
    simp [initState] at hget
  · intro i pw hget
    simp [initState] at hget
  · intro hbuf; exact absurd rfl hbuf
  · intro m hm; exact absurd hm (by simp [initState])

/-- Preservation core: the invariant survives replacing one task's phase,
together with any monotone stop-flag change and any buffer change that
keeps the buffer conjuncts. -/
theorem inv_core (P : Params) (s : RunState) (i : Nat) (pw : String)
    (ph0 ph : TaskPhase) (b : Bool) (buf' : List String)
    (hget : s.tasks[i]? = some (pw, ph0)) (hI : Inv P s)
    (hflag : s.stopFlag = true → b = true)
    (hmux : List.countP (fun t => t.2.holdsMutex) (s.tasks.set i (pw, ph)) ≤ 1)
    (hperm : List.countP (fun t => t.2.holdsPermit) (s.tasks.set i (pw, ph)) ≤
      P.maxThreads)
    (hloop : ∀ rem : List String, ph = TaskPhase.looping rem →
      List.IsSuffix rem P.paths)
    (hsend : ph = TaskPhase.toSend → b = true)
    (hbuf6 : buf' ≠ [] → b = true)
    (hbuf7 : ∀ m ∈ buf', m ∈ P.passwords) :
    Inv P
      { s with
          tasks := s.tasks.set i (pw, ph)
          stopFlag := b
          buf := buf' } := by
  obtain ⟨h1, h2, h3, h4, h5, h6, h7⟩ := hI
  have hi : i < s.tasks.length := (List.getElem?_eq_some.mp hget).1
  refine ⟨?_, hmux, hperm, ?_, ?_, hbuf6, hbuf7⟩
  · show (s.tasks.set i (pw, ph)).map Prod.fst = P.passwords
    rw [map_fst_set_raw s.tasks i pw ph0 ph hget]
    exact h1
  · intro j pw' rem hj
    have hj0 : (s.tasks.set i (pw, ph))[j]? =
        some (pw', TaskPhase.looping rem) := hj
    rw [getq_set_raw s.tasks i j (pw, ph) hi] at hj0
    by_cases hij : i = j
    · rw [if_pos hij] at hj0
      injection hj0 with hj0
      injection hj0 with hj1 hj2
      exact hloop rem hj2
    · rw [if_neg hij] at hj0
      exact h4 j pw' rem hj0
  · intro j pw' hj
    show b = true
    have hj0 : (s.tasks.set i (pw, ph))[j]? =
        some (pw', TaskPhase.toSend) := hj
    rw [getq_set_raw s.tasks i j (pw, ph) hi] at hj0
    by_cases hij : i = j
    · rw [if_pos hij] at hj0
      injection hj0 with hj0
      injection hj0 with hj1 hj2
      exact hsend hj2
    · rw [if_neg hij] at hj0
      exact hflag (h5 j pw' hj0)

/-- Every enabled step preserves the invariant. -/
theorem inv_step (P : Params) (s s' : RunState) (a : Act)
    (hI : Inv P s) (h : step P s a = some s') : Inv P s' := by
  have hIc := hI
  obtain ⟨h1, h2, h3, h4, h5, h6, h7⟩ := hI
  have h2' : List.countP (fun t => t.2.holdsMutex) s.tasks ≤ 1 := h2
  have h3' : List.countP (fun t => t.2.holdsPermit) s.tasks ≤ P.maxThreads := h3
  cases a with
  | task i =>
    cases ht : s.tasks[i]? with
    | none => simp [step, ht] at h
    | some t =>
      obtain ⟨pw, ph⟩ := t
      cases ph with
      | toLock =>
        simp only [step, ht] at h
        split at h
        next hfree =>
          injection h with h
          subst h
          have hm0 : List.countP (fun t => t.2.holdsMutex) s.tasks = 0 :=
            mutexFree_holders s hfree
          have hbalm : List.countP (fun t => t.2.holdsMutex)
                (s.tasks.set i (pw, TaskPhase.toAcquire)) + 0 =
              List.countP (fun t => t.2.holdsMutex) s.tasks + 1 :=
            countP_set_balance _ s.tasks i (pw, TaskPhase.toLock)
              (pw, TaskPhase.toAcquire) ht
          have hbalp : List.countP (fun t => t.2.holdsPermit)
                (s.tasks.set i (pw, TaskPhase.toAcquire)) + 0 =
              List.countP (fun t => t.2.holdsPermit) s.tasks + 0 :=
            countP_set_balance _ s.tasks i (pw, TaskPhase.toLock)
              (pw, TaskPhase.toAcquire) ht
          exact inv_core P s i pw TaskPhase.toLock TaskPhase.toAcquire
            s.stopFlag s.buf ht hIc (fun hx => hx) (by omega) (by omega)
            (fun rem hrem => by cases hrem) (fun hts => by cases hts) h6 h7
        next => simp at h
      | toAcquire =>
        simp only [step, ht] at h
        split at h
        next hlt =>
          injection h with h
          subst h
          have hlt' : List.countP (fun t => t.2.holdsPermit) s.tasks <
              P.maxThreads := hlt
          have hbalm : List.countP (fun t => t.2.holdsMutex)
                (s.tasks.set i (pw, TaskPhase.looping P.paths)) + 1 =
              List.countP (fun t => t.2.holdsMutex) s.tasks + 1 :=
            countP_set_balance _ s.tasks i (pw, TaskPhase.toAcquire)
              (pw, TaskPhase.looping P.paths) ht
          have hbalp : List.countP (fun t => t.2.holdsPermit)
                (s.tasks.set i (pw, TaskPhase.looping P.paths)) + 0 =
              List.countP (fun t => t.2.holdsPermit) s.tasks + 1 :=
            countP_set_balance _ s.tasks i (pw, TaskPhase.toAcquire)
              (pw, TaskPhase.looping P.paths) ht
          exact inv_core P s i pw TaskPhase.toAcquire
            (TaskPhase.looping P.paths) s.stopFlag s.buf ht hIc (fun hx => hx)
            (by omega) (by omega)
            (fun rem hrem => by
              injection hrem with hr
              subst hr
              exact List.suffix_refl P.paths)
            (fun hts => by cases hts) h6 h7
        next => simp at h
      | looping rem0 =>
        cases rem0 with
        | nil =>
          simp only [step, ht] at h
          injection h with h
          subst h
          have hbalm : List.countP (fun t => t.2.holdsMutex)
                (s.tasks.set i (pw, TaskPhase.finished)) + 1 =
              List.countP (fun t => t.2.holdsMutex) s.tasks + 0 :=
            countP_set_balance _ s.tasks i (pw, TaskPhase.looping [])
              (pw, TaskPhase.finished) ht
          have hbalp : List.countP (fun t => t.2.holdsPermit)
                (s.tasks.set i (pw, TaskPhase.finished)) + 1 =
              List.countP (fun t => t.2.holdsPermit) s.tasks + 0 :=
            countP_set_balance _ s.tasks i (pw, TaskPhase.looping [])
              (pw, TaskPhase.finished) ht
          exact inv_core P s i pw (TaskPhase.looping []) TaskPhase.finished
            s.stopFlag s.buf ht hIc (fun hx => hx) (by omega) (by omega)
            (fun rem hrem => by cases hrem) (fun hts => by cases hts) h6 h7
        | cons p rem =>
          simp only [step, ht] at h
          cases hatt : P.att p pw with
          | success =>
            simp only [hatt] at h
            injection h with h
            subst h
            have hbalm : List.countP (fun t => t.2.holdsMutex)
                  (s.tasks.set i (pw, TaskPhase.toSend)) + 1 =
                List.countP (fun t => t.2.holdsMutex) s.tasks + 1 :=
              countP_set_balance _ s.tasks i (pw, TaskPhase.looping (p :: rem))
                (pw, TaskPhase.toSend) ht
            have hbalp : List.countP (fun t => t.2.holdsPermit)
                  (s.tasks.set i (pw, TaskPhase.toSend)) + 1 =
                List.countP (fun t => t.2.holdsPermit) s.tasks + 1 :=
              countP_set_balance _ s.tasks i (pw, TaskPhase.looping (p :: rem))
                (pw, TaskPhase.toSend) ht
            exact inv_core P s i pw (TaskPhase.looping (p :: rem))
              TaskPhase.toSend true s.buf ht hIc (fun hx => rfl)
              (by omega) (by omega) (fun rem hrem => by cases hrem)
              (fun hts => rfl) (fun hb => rfl) h7
          | failure =>
            simp only [hatt] at h
            injection h with h
            subst h
            have hbalm : List.countP (fun t => t.2.holdsMutex)
                  (s.tasks.set i (pw, TaskPhase.looping rem)) + 1 =
                List.countP (fun t => t.2.holdsMutex) s.tasks + 1 :=
              countP_set_balance _ s.tasks i (pw, TaskPhase.looping (p :: rem))
                (pw, TaskPhase.looping rem) ht
            have hbalp : List.countP (fun t => t.2.holdsPermit)
                  (s.tasks.set i (pw, TaskPhase.looping rem)) + 1 =
                List.countP (fun t => t.2.holdsPermit) s.tasks + 1 :=
              countP_set_balance _ s.tasks i (pw, TaskPhase.looping (p :: rem))
                (pw, TaskPhase.looping rem) ht
            exact inv_core P s i pw (TaskPhase.looping (p :: rem))
              (TaskPhase.looping rem) s.stopFlag s.buf ht hIc (fun hx => hx)
              (by omega) (by omega)
              (fun rem' hrem => by
                injection hrem with hr
                subst hr
                exact (List.suffix_cons p rem).trans (h4 i pw (p :: rem) ht))
              (fun hts => by cases hts) h6 h7
          | panics =>
            simp only [hatt] at h
            injection h with h
            subst h
            have hbalm : List.countP (fun t => t.2.holdsMutex)
                  (s.tasks.set i (pw, TaskPhase.crashed)) + 1 =
                List.countP (fun t => t.2.holdsMutex) s.tasks + 0 :=
              countP_set_balance _ s.tasks i (pw, TaskPhase.looping (p :: rem))
                (pw, TaskPhase.crashed) ht
            have hbalp : List.countP (fun t => t.2.holdsPermit)
                  (s.tasks.set i (pw, TaskPhase.crashed)) + 1 =
                List.countP (fun t => t.2.holdsPermit) s.tasks + 0 :=
              countP_set_balance _ s.tasks i (pw, TaskPhase.looping (p :: rem))
                (pw, TaskPhase.crashed) ht
            exact inv_core P s i pw (TaskPhase.looping (p :: rem))
              TaskPhase.crashed s.stopFlag s.buf ht hIc (fun hx => hx)
              (by omega) (by omega) (fun rem' hrem => by cases hrem)
              (fun hts => by cases hts) h6 h7
      | toSend =>
        simp only [step, ht] at h
        split at h
        next hdone =>
          injection h with h
          subst h
          have hbalm : List.countP (fun t => t.2.holdsMutex)
                (s.tasks.set i (pw, TaskPhase.crashed)) + 1 =
              List.countP (fun t => t.2.holdsMutex) s.tasks + 0 :=
            countP_set_balance _ s.tasks i (pw, TaskPhase.toSend)
              (pw, TaskPhase.crashed) ht
          have hbalp : List.countP (fun t => t.2.holdsPermit)
                (s.tasks.set i (pw, TaskPhase.crashed)) + 1 =
              List.countP (fun t => t.2.holdsPermit) s.tasks + 0 :=
            countP_set_balance _ s.tasks i (pw, TaskPhase.toSend)
              (pw, TaskPhase.crashed) ht
          exact inv_core P s i pw TaskPhase.toSend TaskPhase.crashed
            s.stopFlag s.buf ht hIc (fun hx => hx) (by omega) (by omega)
            (fun rem hrem => by cases hrem) (fun hts => by cases hts) h6 h7
        next hnotdone =>
          split at h
          next hroom =>
            injection h with h
            subst h
            have hpwmem : pw ∈ P.passwords := by
              rw [← h1]
              exact List.mem_map_of_mem Prod.fst (List.getElem?_mem ht)
            have hbalm : List.countP (fun t => t.2.holdsMutex)
                  (s.tasks.set i (pw, TaskPhase.finished)) + 1 =
                List.countP (fun t => t.2.holdsMutex) s.tasks + 0 :=
              countP_set_balance _ s.tasks i (pw, TaskPhase.toSend)
                (pw, TaskPhase.finished) ht
            have hbalp : List.countP (fun t => t.2.holdsPermit)
                  (s.tasks.set i (pw, TaskPhase.finished)) + 1 =
                List.countP (fun t => t.2.holdsPermit) s.tasks + 0 :=
              countP_set_balance _ s.tasks i (pw, TaskPhase.toSend)
                (pw, TaskPhase.finished) ht
            exact inv_core P s i pw TaskPhase.toSend TaskPhase.finished
              s.stopFlag (s.buf ++ [pw]) ht hIc (fun hx => hx)
              (by omega) (by omega) (fun rem hrem => by cases hrem)
              (fun hts => by cases hts) (fun hb => h5 i pw ht)
              (fun m hm => by
                rcases List.mem_append.mp hm with hm1 | hm2
                · exact h7 m hm1
                · simp at hm2
                  subst hm2
                  exact hpwmem)
          next => simp at h
      | finished => simp [step, ht] at h
      | crashed => simp [step, ht] at h
  | recv =>
    cases hbuf : s.buf with
    | nil => simp [step, hbuf] at h
    | cons m rest =>
      cases hmp : s.mainPhase with
      | done => simp [step, hbuf, hmp] at h
      | recvLoop =>
        simp only [step, hbuf, hmp] at h
        injection h with h
        subst h
        refine ⟨h1, h2, h3, h4, fun j pw' hj => h5 j pw' hj, ?_, ?_⟩
        · intro hrest
          exact h6 (by rw [hbuf]; simp)
        · intro m' hm'
          exact h7 m' (by rw [hbuf]; exact List.mem_cons_of_mem m hm')
  | recvClosed =>
    simp only [step] at h
    split at h
    next hcond =>
      injection h with h
      subst h
      exact ⟨h1, h2, h3, h4, fun j pw' hj => h5 j pw' hj, h6, h7⟩
    next => simp at h

/-- A predicate preserved by every step holds after folding any schedule. -/
theorem foldl_inv (P : Params) (I : RunState → Prop)
    (hstep : ∀ (s : RunState) (a : Act) (s' : RunState),
      I s → step P s a = some s' → I s') :
    ∀ (acts : List Act) (os : Option RunState) (s : RunState),
      (∀ x, os = some x → I x) → acts.foldl (stepO P) os = some s → I s := by
  intro acts
  induction acts with
  | nil => intro os s hos hr; exact hos s hr
  | cons a rest ih =>
    intro os s hos hr
    refine ih (stepO P os a) s ?_ hr
    intro x hx
    cases os with
    | none => simp [stepO] at hx
    | some y => exact hstep y a x (hos y rfl) (by simpa [stepO] using hx)

/-- Induction principle for reachable states of a run. -/
theorem run_ind (P : Params) (I : RunState → Prop)
    (hinit : ∀ s0, start_extraction P = RunOutcome.ok s0 → I s0)
    (hstep : ∀ (s : RunState) (a : Act) (s' : RunState),
      I s → step P s a = some s' → I s')
    (acts : List Act) (s : RunState) (h : run P acts = some s) : I s := by
  rw [run] at h
  cases hse : start_extraction P with
  | panicked => rw [hse] at h; exact absurd h (by simp)
  | ok s0 =>
    rw [hse] at h
    exact foldl_inv P I hstep acts (some s0) s
      (fun x hx => by
        injection hx with hx
        exact hx ▸ hinit s0 hse) h

/-- Every reachable state of a run satisfies the global invariant. -/
theorem run_Inv (P : Params) (acts : List Act) (s : RunState)
    (h : run P acts = some s) : Inv P s :=
  run_ind P (Inv P) (inv_init P)
    (fun s a s' hI hs => inv_step P s s' a hI hs) acts s h

/-! ### Claim C5 -/

/-- Claim C5: at every instant of every run at most `max_threads` tasks
hold a semaphore permit, a task that has exited - normally or through a
failure - holds no permit, and once every task has exited all permits are
back in the pool, so none is leaked. -/
theorem slot_bound_and_release (P : Params) (acts : List Act) (s : RunState)
    (h : run P acts = some s) :
    s.permitsHeld ≤ P.maxThreads ∧
    (∀ t ∈ s.tasks,
      (t.2 = TaskPhase.finished ∨ t.2 = TaskPhase.crashed) →
      t.2.holdsPermit = false) ∧
    ((∀ t ∈ s.tasks, t.2 = TaskPhase.finished ∨ t.2 = TaskPhase.crashed) →
      s.permitsHeld = 0) := by
  obtain ⟨h1, h2, h3, h4, h5, h6, h7⟩ := run_Inv P acts s h
  refine ⟨h3, ?_, ?_⟩
  · intro t ht hend
    rcases hend with he | he <;> rw [he] <;> rfl
  · intro hall
    rw [RunState.permitsHeld, List.countP_eq_zero]
    intro t ht
    rcases hall t ht with he | he <;> simp [he, TaskPhase.holdsPermit]

/-- Witness for claim C5 at a concrete run of scenario `PB`: after three
steps task 0 holds the single outstanding permit. -/
theorem slot_bound_and_release_witness :
    sB3.permitsHeld ≤ PB.maxThreads :=
  (slot_bound_and_release PB [Act.task 0, Act.task 0, Act.task 0] sB3
    (by decide)).1

/-! ### Claim C9 -/

/-- Claim C9: for every run and every value of `max_threads`, at most one
task holds the mutex guard wrapping the semaphore, hence at most one task
is inside its target-attempt loop at any instant - candidate attempts are
fully serialized. -/
theorem attempts_serialized (P : Params) (acts : List Act) (s : RunState)
    (h : run P acts = some s) :
    s.mutexHolders ≤ 1 ∧ s.loopers ≤ 1 := by
  obtain ⟨h1, h2, h3, h4, h5, h6, h7⟩ := run_Inv P acts s h
  refine ⟨h2, le_trans (List.countP_mono_left ?_) h2⟩
  intro t ht hp
  rcases t with ⟨pw, ph⟩
  cases ph <;> simp_all [TaskPhase.inAttemptLoop, TaskPhase.holdsMutex]

/-- Witness for claim C9 at a concrete run of scenario `PB`: task 0 is the
only task inside its attempt loop. -/
theorem attempts_serialized_witness :
    sB2.mutexHolders ≤ 1 ∧ sB2.loopers ≤ 1 :=
  attempts_serialized PB [Act.task 0, Act.task 0] sB2 (by decide)

/-! ### Claim C1 -/

/-- Replacing a task's phase by anything other than `toSend` preserves the
absence of sending tasks. -/
theorem noSend_set (s : RunState) (i : Nat) (pw : String) (ph : TaskPhase)
    (hi : i < s.tasks.length) (hph : ph ≠ TaskPhase.toSend)
    (hts : ∀ (j : Nat) (pw' : String),
      s.tasks[j]? ≠ some (pw', TaskPhase.toSend)) :
    ∀ (j : Nat) (pw' : String),
      (s.tasks.set i (pw, ph))[j]? ≠ some (pw', TaskPhase.toSend) := by
  intro j pw' hj
  rw [getq_set_raw s.tasks i j _ hi] at hj
  by_cases hij : i = j
  · rw [if_pos hij] at hj
    injection hj with hj
    injection hj with hj1 hj2
    exact hph hj2
  · rw [if_neg hij] at hj
    exact hts j pw' hj

/-- When no attempt ever succeeds, `NoSuccessInv` is preserved by every
step. -/
theorem noSuccess_step (P : Params)
    (hatt : ∀ p pw : String, P.att p pw ≠ AttemptResult.success)
    (s : RunState) (a : Act) (s' : RunState) (hI : NoSuccessInv s)
    (h : step P s a = some s') : NoSuccessInv s' := by
  obtain ⟨hm, hf, hb, hts⟩ := hI
  cases a with
  | task i =>
    cases ht : s.tasks[i]? with
    | none => simp [step, ht] at h
    | some t =>
      obtain ⟨pw, ph⟩ := t
      have hi : i < s.tasks.length := (List.getElem?_eq_some.mp ht).1
      cases ph with
      | toLock =>
        simp only [step, ht] at h
        split at h
        next =>
          injection h with h
          subst h
          exact ⟨hm, hf, hb,
            noSend_set s i pw TaskPhase.toAcquire hi (by simp) hts⟩
        next => simp at h
      | toAcquire =>
        simp only [step, ht] at h
        split at h
        next =>
          injection h with h
          subst h
          exact ⟨hm, hf, hb,
            noSend_set s i pw (TaskPhase.looping P.paths) hi (by simp) hts⟩
        next => simp at h
      | looping rem0 =>
        cases rem0 with
        | nil =>
          simp only [step, ht] at h
          injection h with h
          subst h
          exact ⟨hm, hf, hb,
            noSend_set s i pw TaskPhase.finished hi (by simp) hts⟩
        | cons p rem =>
          simp only [step, ht] at h
          cases hatt2 : P.att p pw with
          | success => exact absurd hatt2 (hatt p pw)
          | failure =>
            simp only [hatt2] at h
            injection h with h
            subst h
            exact ⟨hm, hf, hb,
              noSend_set s i pw (TaskPhase.looping rem) hi (by simp) hts⟩
          | panics =>
            simp only [hatt2] at h
            injection h with h
            subst h
            exact ⟨hm, hf, hb,
              noSend_set s i pw TaskPhase.crashed hi (by simp) hts⟩
      | toSend => exact absurd ht (hts i pw)
      | finished => simp [step, ht] at h
      | crashed => simp [step, ht] at h
  | recv => simp [step, hb] at h
  | recvClosed =>
    simp only [step] at h
    split at h
    next hcond =>
      obtain ⟨hc1, hc2, hc3⟩ := hcond
      rw [RunState.sendersAlive, if_pos hc1] at hc3
      omega
    next => simp at h

/-- Claim C1 (code bug): when no candidate password succeeds on any target,
the run never terminates at all - the original channel sender of line 102
stays alive in `start_extraction`'s own scope for as long as the receive
loop runs, so `rx.recv()` can never return `None`; since no report is ever
sent either, every reachable state still has the function inside its
receive loop, even after every spawned task has completed.  No `NotFound`
result is ever produced. -/
theorem no_success_never_returns (P : Params)
    (hatt : ∀ p pw : String, P.att p pw ≠ AttemptResult.success)
    (acts : List Act) (s : RunState) (h : run P acts = some s) :
    s.mainPhase = MainPhase.recvLoop := by
  refine (run_ind P NoSuccessInv ?_ (noSuccess_step P hatt) acts s h).1
  intro s0 hs0
  have hs0' : s0 = initState P.passwords := by
    rw [start_extraction] at hs0
    cases hmk : mkChannel P.passwords.length with
    | panicked => rw [hmk] at hs0; exact absurd hs0 (by simp)
    | ok c => rw [hmk] at hs0; injection hs0 with hs0; exact hs0.symm
  subst hs0'
  refine ⟨rfl, rfl, rfl, ?_⟩
  intro i pw hget
  simp [initState] at hget

/-- Witness for claim C1: in scenario `PA` (single wrong candidate), after
the only task has run to completion the main function is still stuck in its
receive loop. -/
theorem no_success_never_returns_witness :
    sA4.mainPhase = MainPhase.recvLoop :=
  no_success_never_returns PA
    (fun p pw hx => AttemptResult.noConfusion hx)
    [Act.task 0, Act.task 0, Act.task 0, Act.task 0] sA4 (by decide)

/-! ### Claim C7 -/

/-- Claim C7: each per-candidate task walks the target list sequentially in
the configured order (its remaining targets are always a suffix of the
configured list); a successful decode stores the cancellation token and
moves the task to its send, whose completion appends the task's password to
the channel, releases everything and ends the task; a failed attempt moves
on to the next target; and a task that exhausts its targets ends without
sending anything. -/
theorem task_body_contract (P : Params) (acts : List Act) (s : RunState)
    (h : run P acts = some s) :
    (∀ (i : Nat) (pw : String) (rem : List String),
      s.tasks[i]? = some (pw, TaskPhase.looping rem) →
      List.IsSuffix rem P.paths) ∧
    (∀ (i : Nat) (pw p : String) (rem : List String) (s' : RunState),
      s.tasks[i]? = some (pw, TaskPhase.looping (p :: rem)) →
      P.att p pw = AttemptResult.success →
      step P s (Act.task i) = some s' →
      s'.stopFlag = true ∧ s'.tasks[i]? = some (pw, TaskPhase.toSend)) ∧
    (∀ (i : Nat) (pw p : String) (rem : List String) (s' : RunState),
      s.tasks[i]? = some (pw, TaskPhase.looping (p :: rem)) →
      P.att p pw = AttemptResult.failure →
      step P s (Act.task i) = some s' →
      s'.buf = s.buf ∧ s'.tasks[i]? = some (pw, TaskPhase.looping rem)) ∧
    (∀ (i : Nat) (pw : String),
      s.tasks[i]? = some (pw, TaskPhase.toSend) → s.stopFlag = true) ∧
    (∀ (i : Nat) (pw : String) (s' : RunState),
      s.tasks[i]? = some (pw, TaskPhase.toSend) →
      s.mainPhase = MainPhase.recvLoop →
      step P s (Act.task i) = some s' →
      s'.buf = s.buf ++ [pw] ∧
      s'.tasks[i]? = some (pw, TaskPhase.finished)) ∧
    (∀ (i : Nat) (pw : String) (s' : RunState),
      s.tasks[i]? = some (pw, TaskPhase.looping []) →
      step P s (Act.task i) = some s' →
      s'.buf = s.buf ∧ s'.tasks[i]? = some (pw, TaskPhase.finished)) := by
  obtain ⟨h1, h2, h3, h4, h5, h6, h7⟩ := run_Inv P acts s h
  refine ⟨h4, ?_, ?_, h5, ?_, ?_⟩
  · intro i pw p rem s' hget hatt hs
    have hi : i < s.tasks.length := (List.getElem?_eq_some.mp hget).1
    simp only [step, hget, hatt] at hs
    injection hs with hs
    subst hs
    refine ⟨rfl, ?_⟩
    show (s.tasks.set i (pw, TaskPhase.toSend))[i]? =
      some (pw, TaskPhase.toSend)
    rw [getq_set_raw s.tasks i i _ hi]
    simp
  · intro i pw p rem s' hget hatt hs
    have hi : i < s.tasks.length := (List.getElem?_eq_some.mp hget).1
    simp only [step, hget, hatt] at hs
    injection hs with hs
    subst hs
    refine ⟨rfl, ?_⟩
    show (s.tasks.set i (pw, TaskPhase.looping rem))[i]? =
      some (pw, TaskPhase.looping rem)
    rw [getq_set_raw s.tasks i i _ hi]
    simp
  · intro i pw s' hget hmp hs
    have hi : i < s.tasks.length := (List.getElem?_eq_some.mp hget).1
    simp only [step, hget, hmp] at hs
    rw [if_neg (by simp)] at hs
    split at hs
    next hroom =>
      injection hs with hs
      subst hs
      refine ⟨rfl, ?_⟩
      show (s.tasks.set i (pw, TaskPhase.finished))[i]? =
        some (pw, TaskPhase.finished)
      rw [getq_set_raw s.tasks i i _ hi]
      simp
    next => simp at hs
  · intro i pw s' hget hs
    have hi : i < s.tasks.length := (List.getElem?_eq_some.mp hget).1
    simp only [step, hget] at hs
    injection hs with hs
    subst hs
    refine ⟨rfl, ?_⟩
    show (s.tasks.set i (pw, TaskPhase.finished))[i]? =
      some (pw, TaskPhase.finished)
    rw [getq_set_raw s.tasks i i _ hi]
    simp

/-- Witness for claim C7 at a concrete run of scenario `PB`: task 0's
remaining targets form a suffix of the configured target list. -/
theorem task_body_contract_witness : List.IsSuffix ["t"] PB.paths :=
  (task_body_contract PB [Act.task 0, Act.task 0] sB2 (by decide)).1
    0 "b" ["t"] (by decide)

/-! ### Claim C2 -/

/-- Claim C2 counterexample: in the spec's own scenario (candidates "b" and
"c", correct password "b") the cancellation token is already set and
reported, yet the task for "c" still begins a decode attempt against the
target - it moves through target "t" instead of abandoning its targets. -/
theorem task_attempts_after_cancel :
    run PB actsC2 = some sC2 ∧
    sC2.stopFlag = true ∧
    sC2.tasks[1]? = some ("c", TaskPhase.looping ["t"]) ∧
    run PB (actsC2 ++ [Act.task 1]) = some sC2' ∧
    sC2'.tasks[1]? = some ("c", TaskPhase.looping []) := by
  decide

/-- Claim C2 amended: the task body never reads the cancellation token.  A
task's step is identical whether or not the stop flag is set - the flag is
only ever written (on success) - so a task that has been spawned keeps
beginning new decode attempts after cancellation, until its own success,
panic, or target exhaustion. -/
theorem task_step_ignores_stop (P : Params) (s : RunState) (i : Nat) :
    step P { s with stopFlag := true } (Act.task i) =
      (step P s (Act.task i)).map
        (fun s1 => { s1 with stopFlag := true }) := by
  cases ht : s.tasks[i]? with
  | none => simp [step, ht]
  | some t =>
    obtain ⟨pw, ph⟩ := t
    have ht' : ({ s with stopFlag := true } : RunState).tasks[i]? =
      some (pw, ph) := ht
    cases ph with
    | toLock =>
      simp only [step, ht, ht']
      by_cases hfree : s.mutexFree
      · have hfree' : ({ s with stopFlag := true } : RunState).mutexFree :=
          hfree
        simp [hfree, hfree', RunState.setPhase]
      · have hfree' : ¬ ({ s with stopFlag := true } : RunState).mutexFree :=
          hfree
        simp [hfree, hfree']
    | toAcquire =>
      simp only [step, ht, ht']
      by_cases hlt : s.permitsHeld < P.maxThreads
      · have hlt' : ({ s with stopFlag := true } : RunState).permitsHeld <
          P.maxThreads := hlt
        simp [hlt, hlt', RunState.setPhase]
      · have hlt' : ¬ ({ s with stopFlag := true } : RunState).permitsHeld <
          P.maxThreads := hlt
        simp [hlt, hlt']
    | looping rem0 =>
      cases rem0 with
      | nil => simp [step, ht, ht', RunState.setPhase]
      | cons p rem =>
        cases hatt : P.att p pw <;>
          simp [step, ht, ht', hatt, RunState.setPhase]
    | toSend =>
      simp only [step, ht, ht']
      by_cases hdone : s.mainPhase = MainPhase.done
      · have hdone' : ({ s with stopFlag := true } : RunState).mainPhase =
          MainPhase.done := hdone
        simp [hdone, hdone', RunState.setPhase]
      · have hdone' : ¬ ({ s with stopFlag := true } : RunState).mainPhase =
          MainPhase.done := hdone
        by_cases hroom : s.buf.length < P.passwords.length
        · have hroom' :
            ({ s with stopFlag := true } : RunState).buf.length <
              P.passwords.length := hroom
          simp [hdone, hdone', hroom, hroom']
        · have hroom' :
            ¬ ({ s with stopFlag := true } : RunState).buf.length <
              P.passwords.length := hroom
          simp [hdone, hdone', hroom, hroom']
    | finished => simp [step, ht, ht']
    | crashed => simp [step, ht, ht']

/-! ### Claim C3 -/

/-- Claim C3 counterexample: two complete runs whose successful targets
differ ("t1" versus "t2") end in the very same state and hand the caller
the very same (unit) value, so nothing the caller receives can carry the
winning target path - the caller does not receive `Found{candidate,
target}`. -/
theorem result_carries_no_target :
    run PT1 [Act.task 0, Act.task 0, Act.task 0, Act.task 0, Act.recv] =
      some sDone ∧
    run PT2 [Act.task 0, Act.task 0, Act.task 0, Act.task 0, Act.recv] =
      some sDone ∧
    ¬ ∃ d : Unit → SearchResult,
        d (startExtractionReturn sDone) = SearchResult.found "pw" "t1" ∧
        d (startExtractionReturn sDone) = SearchResult.found "pw" "t2" := by
  refine ⟨by decide, by decide, ?_⟩
  rintro ⟨d, hd1, hd2⟩
  rw [hd1] at hd2
  exact absurd hd2 (by decide)

/-- Claim C3 amended: the caller receives no structured result at all -
`start_extraction` returns the unit value whatever happened - and the only
cross-task message is the bare candidate password, always an element of the
candidate list; no target path and no `NotFound` value is ever exposed. -/
theorem caller_gets_unit (P : Params) (acts : List Act) (s : RunState)
    (h : run P acts = some s) :
    startExtractionReturn s = () ∧ ∀ m ∈ s.buf, m ∈ P.passwords := by
  obtain ⟨h1, h2, h3, h4, h5, h6, h7⟩ := run_Inv P acts s h
  exact ⟨rfl, h7⟩

/-- Witness for the amended claim C3 at a concrete run of scenario `PT1`:
the return value is unit and the buffered report is the candidate. -/
theorem caller_gets_unit_witness :
    startExtractionReturn sT1 = () ∧ ("pw" : String) ∈ PT1.passwords :=
  ⟨(caller_gets_unit PT1 [Act.task 0, Act.task 0, Act.task 0, Act.task 0]
      sT1 (by decide)).1,
   (caller_gets_unit PT1 [Act.task 0, Act.task 0, Act.task 0, Act.task 0]
      sT1 (by decide)).2 "pw" (by decide)⟩

/-! ### Claim C8 -/

/-- Claim C8 counterexample: when two candidates both succeed, the second
report can be sent after the aggregator has already returned, and then the
`unwrap` on the channel send panics the reporting task - a late duplicate
report does cause a panic. -/
theorem late_report_panics :
    run PAll2 actsC8 = some s8 ∧
    s8.mainPhase = MainPhase.done ∧
    s8.tasks[1]? = some ("b", TaskPhase.toSend) ∧
    run PAll2 (actsC8 ++ [Act.task 1]) = some s8' ∧
    s8'.tasks[1]? = some ("b", TaskPhase.crashed) := by
  decide

/-- Claim C8 amended: the aggregator takes the first report and returns
(the stop flag is always set before any report is sent, so the loop breaks
on the first receive); a duplicate report sent while the receiver is still
open is merely buffered and never read; but a report sent after the
aggregator has returned makes the sending task panic through the `unwrap`
on the send. -/
theorem aggregator_first_report (P : Params) (acts : List Act)
    (s : RunState) (h : run P acts = some s) :
    (s.buf ≠ [] → s.stopFlag = true) ∧
    (∀ (m : String) (rest : List String), s.buf = m :: rest →
      s.mainPhase = MainPhase.recvLoop →
      step P s Act.recv =
        some { s with buf := rest, mainPhase := MainPhase.done }) ∧
    (∀ (i : Nat) (pw : String),
      s.tasks[i]? = some (pw, TaskPhase.toSend) →
      s.mainPhase = MainPhase.done →
      step P s (Act.task i) =
        some (s.setPhase i pw TaskPhase.crashed)) := by
  obtain ⟨h1, h2, h3, h4, h5, h6, h7⟩ := run_Inv P acts s h
  refine ⟨h6, ?_, ?_⟩
  · intro m rest hbuf hmp
    have hflag : s.stopFlag = true := h6 (by rw [hbuf]; simp)
    simp [step, hbuf, hmp, hflag]
  · intro i pw hget hmp
    simp [step, hget, hmp]

/-- Witness for the amended claim C8 at the concrete run of scenario
`PAll2`: the late send step panics task 1. -/
theorem aggregator_first_report_witness :
    step PAll2 s8 (Act.task 1) =
      some (s8.setPhase 1 "b" TaskPhase.crashed) :=
  (aggregator_first_report PAll2 actsC8 s8 (by decide)).2.2 1 "b"
    (by decide) (by decide)

/-! ### Claim C4 -/

/-- Claim C4 counterexample: with the concurrency ceiling configured as 0,
`read_config` raises no configuration error - it succeeds, silently
replacing the value by the default 4. -/
theorem zero_ceiling_not_an_error :
    cfg0.config.threads = 0 ∧
    read_config (Except.ok cfg0) = Except.ok cfg4 := by
  exact ⟨rfl, rfl⟩

/-- Claim C4 amended: an out-of-range ceiling (0, or above 8) is silently
replaced by the default 4 while loading the configuration; no error is
raised for it, and the loaded ceiling always lies between 1 and 8 - in
particular it is never accepted as 0. -/
theorem ceiling_clamped (c : Config) :
    read_config (Except.ok c) =
      Except.ok
        { c with config := { c.config with threads :=
            if c.config.threads < 1 ∨ c.config.threads > 8
            then default_threads else c.config.threads } } ∧
    ∀ t : Config, read_config (Except.ok c) = Except.ok t →
      1 ≤ t.config.threads ∧ t.config.threads ≤ 8 := by
  refine ⟨rfl, ?_⟩
  intro t ht
  simp only [read_config] at ht
  injection ht with ht
  subst ht
  show 1 ≤ (if c.config.threads < 1 ∨ c.config.threads > 8
      then default_threads else c.config.threads) ∧
    (if c.config.threads < 1 ∨ c.config.threads > 8
      then default_threads else c.config.threads) ≤ 8
  by_cases hc : c.config.threads < 1 ∨ c.config.threads > 8
  · rw [if_pos hc]
    exact ⟨by decide, by decide⟩
  · rw [if_neg hc]
    push_neg at hc
    omega

/-- Witness for the amended claim C4 at the concrete zero-ceiling
configuration: the loaded ceiling is within bounds. -/
theorem ceiling_clamped_witness :
    1 ≤ cfg4.config.threads ∧ cfg4.config.threads ≤ 8 :=
  (ceiling_clamped cfg0).2 cfg4 rfl

/-! ### Claim C6 -/

/-- Claim C6 counterexample: an I/O error opening the first target is not
recovered locally - the `unwrap` on `File::open` panics and the task
aborts, never reaching the second target on which the very same password
would succeed; a wrong-password failure, by contrast, is recovered and the
loop reaches the second target and reports. -/
theorem io_error_aborts_task :
    taskTargetLoop [envUnopenable, envGood] "p" = TaskExit.panicked ∧
    taskTargetLoop [envWrong, envGood] "p" = TaskExit.reported "p" := by
  exact ⟨rfl, rfl⟩

/-- Claim C6 amended: decoder failures (wrong password, corrupt archive)
are recovered locally - the task just moves on to the next target - and are
never surfaced to the caller; but an I/O error opening one target panics
the task through the `unwrap` on `File::open`, aborting its remaining
targets. -/
theorem attempt_failure_handling :
    (∀ (env : TargetEnv) (rest : List TargetEnv) (pw : String)
      (e : DecodeError),
      env.openRes = OpenResult.opened → env.dec pw = some e →
      taskTargetLoop (env :: rest) pw = taskTargetLoop rest pw) ∧
    (∀ (env : TargetEnv) (rest : List TargetEnv) (pw : String),
      env.openRes = OpenResult.ioError →
      taskTargetLoop (env :: rest) pw = TaskExit.panicked) := by
  constructor
  · intro env rest pw e hopen hdec
    simp [taskTargetLoop, try_extract_7z_with_password, hopen, hdec]
  · intro env rest pw hopen
    simp [taskTargetLoop, try_extract_7z_with_password, hopen]

/-- Witness for the amended claim C6 at concrete targets: a wrong password
moves on, an unopenable file panics. -/
theorem attempt_failure_handling_witness :
    taskTargetLoop [envWrong] "q" = taskTargetLoop [] "q" ∧
    taskTargetLoop [envUnopenable] "q" = TaskExit.panicked :=
  ⟨attempt_failure_handling.1 envWrong [] "q" DecodeError.wrongPassword
      rfl rfl,
   attempt_failure_handling.2 envUnopenable [] "q" rfl⟩

/-! ### Claim C10 -/

/-- Claim C10: on an empty candidate list `start_extraction` panics while
constructing the report channel - the channel capacity is the candidate
count, and tokio's channel constructor rejects a capacity of 0 - instead of
returning normally. -/
theorem empty_candidates_panic (paths : List String)
    (att : String → String → AttemptResult) (mt : Nat) :
    start_extraction
        { passwords := [], paths := paths, att := att, maxThreads := mt } =
      RunOutcome.panicked ∧
    mkChannel (List.length ([] : List String)) = RunOutcome.panicked :=
  ⟨rfl, rfl⟩

end CascadingExtract
